import Mathlib

/-!
Shallow embedding of the UpdateWP step-orchestration pipeline
(src/src/lib.rs, with the older standalone revision src/src/main.rs where
noted).  External effects (subprocess spawns, captured outputs, filesystem
probes and removals) are modelled by an explicit environment `Env`; every
operation returns the list of effect events it performed together with an
`Except String` outcome, mirroring the Rust `OrError` type.  The wall clock
(`unix_time`) is modelled as `Env.now`; the (practically unreachable)
`SystemTime`-before-epoch error path of `unix_time` is not modelled.
-/

namespace UpdateWP

/-- Characters of a string; Rust `str` values are modelled as `String`,
with replacement and scanning performed on their character lists. -/
abbrev Chars := List Char

def quoteChar : Char := Char.ofNat 34

def backslashChar : Char := Char.ofNat 92

def lbrace : Char := Char.ofNat 123

def rbrace : Char := Char.ofNat 125

/-- One external effect performed by the pipeline. -/
inductive Event
  /-- `stream_command` spawning `prog` with `args` (stdout piped). -/
  | spawnStream (prog : String) (args : List String)
  /-- one stdout line forwarded to the operator by `stream_command`. -/
  | printLine (line : String)
  /-- a `Command::output()` invocation capturing stdout wholesale. -/
  | capture (prog : String) (args : List String)
  /-- `ensure_path_prefix`: `fs::create_dir_all` of the path's parent. -/
  | ensureParent (path : String)
  /-- `Path::try_exists` probe performed by `remove`. -/
  | probe (path : String)
  /-- `fs::remove_dir_all`. -/
  | removeDirAll (path : String)
  /-- `fs::remove_file`. -/
  | removeFile (path : String)
deriving DecidableEq, Repr

/-- Events that mutate the filesystem (as opposed to probes / spawns). -/
def isMutation : Event → Bool
  | Event.ensureParent _ => true
  | Event.removeDirAll _ => true
  | Event.removeFile _ => true
  | _ => false

/-- Events that are external subprocess invocations. -/
def isInvocation : Event → Bool
  | Event.spawnStream _ _ => true
  | Event.capture _ _ => true
  | _ => false

/-- Outcome of spawning a command with piped stdout: either the spawn itself
fails, or the child runs; `captured` tells whether a stdout handle was
obtained, `lines` are the stdout lines in order (`none` = a line that is not
valid text), `exitNonZero` records a non-zero exit status. -/
inductive SpawnOutcome
  | spawnErr (e : String)
  | spawned (captured : Bool) (lines : List (Option String)) (exitNonZero : Bool)
deriving DecidableEq, Repr

/-- Deterministic model of the outside world.  `capture prog args` is the
result of `Command::output()`: `Except.error` for a spawn failure, `some s`
for stdout that decodes as text `s`, `none` for invalid text. -/
structure Env where
  spawn : String → List String → SpawnOutcome
  capture : String → List String → Except String (Option String)
  ensureParent : String → Except String Unit
  tryExists : String → Except String Bool
  /-- `fs::metadata`: `Except.ok isDir` or an error. -/
  metadata : String → Except String Bool
  removeDir : String → Except String Unit
  removeFile : String → Except String Unit
  /-- current Unix time in seconds. -/
  now : Nat

/-- Result of a pipeline operation: the effect events it performed, in
order, and its `OrError` outcome. -/
abbrev Res (α : Type) := List Event × Except String α

/-- Sequencing with Rust `?` semantics: on error the trace so far is kept
and the continuation never runs. -/
def bindR {α β : Type} : Res α → (α → Res β) → Res β
  | (tr, Except.error e), _ => (tr, Except.error e)
  | (tr, Except.ok a), f => (tr ++ (f a).1, (f a).2)

def okR {α : Type} (a : α) : Res α := ([], Except.ok a)

/-- Model of Rust `str::replace pat → rep` restricted to non-empty
patterns: scan left to right, replace each non-overlapping occurrence,
never rescanning inside an emitted replacement.  `fuel` bounds the
recursion; it is instantiated with the length of the subject, which
suffices because every step consumes at least one character.  (Rust's
behaviour on an empty pattern — inserting `rep` at every boundary — is not
reproduced; every pattern used by the program is a non-empty literal.) -/
def replaceGo (pat rep : Chars) : Nat → Chars → Chars
  | _, [] => []
  | 0, s => s
  | fuel + 1, c :: rest =>
    if pat ≠ [] ∧ List.isPrefixOf pat (c :: rest) then
      rep ++ replaceGo pat rep fuel (List.drop (pat.length - 1) rest)
    else
      c :: replaceGo pat rep fuel rest

def replaceAllL (pat rep s : Chars) : Chars := replaceGo pat rep s.length s

/-- Rust `s.replace(pat, rep)`. -/
def rustReplace (s pat rep : String) : String :=
  (replaceAllL pat.toList rep.toList s.toList).asString

/-- Does `pat` occur as a contiguous substring of `s`? -/
def containsSubL (pat : Chars) : Chars → Bool
  | [] => List.isPrefixOf pat []
  | c :: rest => List.isPrefixOf pat (c :: rest) || containsSubL pat rest

def containsSub (pat s : String) : Bool := containsSubL pat.toList s.toList

/-- The marker `serde_json` payloads are located by: `const JSON_START`. -/
def JSON_START : String := "[\x7b\""

/-- `get_json`: the suffix of the raw output starting at the first
occurrence of `JSON_START` (the Rust code first tests `starts_with`, then
`find`s the marker; both cases yield the suffix from the first
occurrence). -/
def getJsonL : Chars → Option Chars
  | [] => none
  | c :: rest =>
    if List.isPrefixOf JSON_START.toList (c :: rest) then some (c :: rest)
    else getJsonL rest

def getJsonStr (s : String) : Option String := (getJsonL s.toList).map List.asString

/-!
Structured-output decoding.  The program delegates to `serde_json`; we
model the grammar it is applied to — a JSON array of flat objects whose
field values are strings, numbers or literals, which is the shape the
external tool emits.  Nested containers inside object fields are not part
of the modelled grammar.
-/

inductive Json
  | jstr (s : String)
  | jnum (s : String)
  | jtrue
  | jfalse
  | jnull
deriving DecidableEq, Repr

def skipWs : Chars → Chars
  | [] => []
  | c :: rest =>
    if c = ' ' ∨ c = Char.ofNat 10 ∨ c = Char.ofNat 9 ∨ c = Char.ofNat 13 then skipWs rest
    else c :: rest

def unescape (c : Char) : Option Char :=
  if c = quoteChar ∨ c = backslashChar ∨ c = '/' then some c
  else if c = 'n' then some (Char.ofNat 10)
  else if c = 't' then some (Char.ofNat 9)
  else if c = 'r' then some (Char.ofNat 13)
  else none

/-- Parse the body of a JSON string after its opening quote; returns the
unescaped body and the remainder after the closing quote. -/
def parseStringRest : Chars → Option (Chars × Chars)
  | [] => none
  | c :: rest =>
    if c = quoteChar then some ([], rest)
    else if c = backslashChar then
      match rest with
      | [] => none
      | d :: rest2 =>
        match unescape d, parseStringRest rest2 with
        | some ch, some (body, rem) => some (ch :: body, rem)
        | _, _ => none
    else
      match parseStringRest rest with
      | some (body, rem) => some (c :: body, rem)
      | none => none

def isNumChar (c : Char) : Bool :=
  c.isDigit || c = '-' || c = '+' || c = '.' || c = 'e' || c = 'E'

def takeNum : Chars → Chars × Chars
  | [] => ([], [])
  | c :: rest =>
    if isNumChar c then
      let (a, b) := takeNum rest
      (c :: a, b)
    else ([], c :: rest)

/-- Parse one scalar JSON value (string, number, `true`, `false`, `null`). -/
def parseScalar (s : Chars) : Option (Json × Chars) :=
  match skipWs s with
  | [] => none
  | c :: rest =>
    if c = quoteChar then
      match parseStringRest rest with
      | some (body, rem) => some (Json.jstr body.asString, rem)
      | none => none
    else if List.isPrefixOf "true".toList (c :: rest) then
      some (Json.jtrue, List.drop 4 (c :: rest))
    else if List.isPrefixOf "false".toList (c :: rest) then
      some (Json.jfalse, List.drop 5 (c :: rest))
    else if List.isPrefixOf "null".toList (c :: rest) then
      some (Json.jnull, List.drop 4 (c :: rest))
    else if isNumChar c then
      let (a, b) := takeNum (c :: rest)
      some (Json.jnum a.asString, b)
    else none

/-- Parse `"key": scalar` pairs up to and including the closing brace. -/
def parseFields : Nat → Chars → Option (List (String × Json) × Chars)
  | 0, _ => none
  | fuel + 1, s =>
    match skipWs s with
    | [] => none
    | c :: rest =>
      if c = quoteChar then
        match parseStringRest rest with
        | some (key, rem) =>
          match skipWs rem with
          | ':' :: rem2 =>
            match parseScalar rem2 with
            | some (v, rem3) =>
              match skipWs rem3 with
              | ',' :: rem4 =>
                match parseFields fuel rem4 with
                | some (fs, rem5) => some ((key.asString, v) :: fs, rem5)
                | none => none
              | d :: rem4 =>
                if d = rbrace then some ([(key.asString, v)], rem4) else none
              | [] => none
            | none => none
          | _ => none
        | none => none
      else none

/-- Parse one object `{ ... }` of scalar fields. -/
def parseObj (fuel : Nat) (s : Chars) : Option (List (String × Json) × Chars) :=
  match skipWs s with
  | [] => none
  | c :: rest =>
    if c = lbrace then
      match skipWs rest with
      | [] => none
      | d :: rest2 =>
        if d = rbrace then some ([], rest2) else parseFields fuel rest
    else none

/-- Parse a non-empty comma-separated object list up to the closing `]`. -/
def parseObjsNE : Nat → Chars → Option (List (List (String × Json)) × Chars)
  | 0, _ => none
  | fuel + 1, s =>
    match parseObj fuel s with
    | some (obj, rem) =>
      match skipWs rem with
      | ',' :: rem2 =>
        match parseObjsNE fuel rem2 with
        | some (objs, rem3) => some (obj :: objs, rem3)
        | none => none
      | ']' :: rem2 => some ([obj], rem2)
      | _ => none
    | none => none

/-- Parse a whole payload: a JSON array of flat objects, with nothing but
whitespace after it (`serde_json::from_str` rejects trailing data). -/
def parseTopArray (s : Chars) : Option (List (List (String × Json))) :=
  match skipWs s with
  | [] => none
  | c :: rest =>
    if c = '[' then
      match skipWs rest with
      | ']' :: rem => if skipWs rem = [] then some [] else none
      | _ =>
        match parseObjsNE s.length rest with
        | some (objs, rem) => if skipWs rem = [] then some objs else none
        | none => none
    else none

def jsonToStr : Json → Option String
  | Json.jstr s => some s
  | _ => none

def lookupJ (fields : List (String × Json)) (k : String) : Option Json :=
  match fields.find? (fun kv => kv.1 == k) with
  | some kv => some kv.2
  | none => none

/-- The per-item record `update_in_steps` deserializes:
`{name, version, update_version}`. -/
structure Update where
  name : String
  version : String
  update_version : String
deriving DecidableEq, Repr

def toUpdate (fs : List (String × Json)) : Option Update :=
  match (lookupJ fs "name").bind jsonToStr, (lookupJ fs "version").bind jsonToStr,
      (lookupJ fs "update_version").bind jsonToStr with
  | some n, some v, some uv => some ⟨n, v, uv⟩
  | _, _, _ => none

/-- `serde_json::from_str::<Vec<Update>>` on a payload string. -/
def parseUpdates (s : String) : Except String (List Update) :=
  match parseTopArray s.toList with
  | some objs =>
    match objs.mapM toUpdate with
    | some us => Except.ok us
    | none => Except.error "missing or non-string field"
  | none => Except.error "invalid JSON"

/-- `serde_json::from_str::<Vec<Plugin>>` (field `name` only). -/
def parsePlugins (s : String) : Except String (List String) :=
  match parseTopArray s.toList with
  | some objs =>
    match objs.mapM (fun fs => (lookupJ fs "name").bind jsonToStr) with
    | some ns => Except.ok ns
    | none => Except.error "missing or non-string field"
  | none => Except.error "invalid JSON"

/-- The list-query decode: locate the payload with `get_json`, fall back to
`"[]"` when the marker is absent (`unwrap_or`), then deserialize. -/
def decodeUpdates (raw : String) : Except String (List Update) :=
  parseUpdates ((getJsonStr raw).getD "[]")

/-- The active-plugins decode used by `get_active_plugins`. -/
def decodePluginNames (raw : String) : Except String (List String) :=
  parsePlugins ((getJsonStr raw).getD "[]")

/-!  The pipeline operations of src/src/lib.rs.  -/

/-- The stdout lines `stream_command` forwards to the operator:
`reader.lines().map_while(Result::ok)` stops at the first line that fails
to decode as text, without surfacing an error. -/
def printedLines : List (Option String) → List Event
  | [] => []
  | none :: _ => []
  | some l :: rest => Event.printLine l :: printedLines rest

/-- `stream_command`: spawn with piped stdout, forward lines as they
arrive.  A spawn failure or a missing stdout handle is an error; the exit
status of the child is never inspected. -/
def stream_command (env : Env) (prog : String) (args : List String) : Res Unit :=
  match env.spawn prog args with
  | SpawnOutcome.spawnErr e => ([Event.spawnStream prog args], Except.error e)
  | SpawnOutcome.spawned false _ _ =>
    ([Event.spawnStream prog args], Except.error "Could not capture stdout.")
  | SpawnOutcome.spawned true lines _ =>
    (Event.spawnStream prog args :: printedLines lines, Except.ok ())

/-- `Command::output()?` followed by text decoding (`str::from_utf8` /
`String::from_utf8` with `?`). -/
def captureText (env : Env) (prog : String) (args : List String) : Res String :=
  match env.capture prog args with
  | Except.error e => ([Event.capture prog args], Except.error e)
  | Except.ok none => ([Event.capture prog args], Except.error "invalid utf-8 in output")
  | Except.ok (some s) => ([Event.capture prog args], Except.ok s)

/-- `get_active_plugins`: list active plugins as JSON, decode their names. -/
def get_active_plugins (env : Env) (wordpress_path : String) : Res (List String) :=
  bindR (captureText env "wp"
      ["plugin", "list", "--fields=name", "--status=active", "--format=json",
        "--path=" ++ wordpress_path]) fun raw =>
    match decodePluginNames raw with
    | Except.ok names => ([], Except.ok names)
    | Except.error e => ([], Except.error e)

/-- `activate_plugins`: `wp plugin activate|deactivate <plugins…> --path=…`. -/
def activate_plugins (env : Env) (wordpress_path : String) (plugins : List String)
    (activate : Bool) : Res Unit :=
  stream_command env "wp"
    (["plugin", if activate then "activate" else "deactivate"] ++ plugins
      ++ ["--path=" ++ wordpress_path])

/-- `ensure_path_prefix`: create the destination's parent directory. -/
def ensurePathParent (env : Env) (path : String) : Res Unit :=
  ([Event.ensureParent path], env.ensureParent path)

/-- `backup_database`: ensure the parent directory, then `wp db export`. -/
def backup_database (env : Env) (wordpress_path path : String) : Res Unit :=
  bindR (ensurePathParent env path) fun _ =>
    stream_command env "wp"
      ["db", "export", path, "--defaults", "--path=" ++ wordpress_path]

/-- `get_wordpress_version`: `wp core version`, stdout decoded as text. -/
def get_wordpress_version (env : Env) (wordpress_path : String) : Res String :=
  captureText env "wp" ["core", "version", "--path=" ++ wordpress_path]

/-- One iteration of `remove`'s loop: probe the path; only when
`try_exists` answers `Ok(true)` stat it and remove it (recursively for a
directory), with any error fatal; otherwise skip silently. -/
def removeOne (env : Env) (p : String) : Res Unit :=
  match env.tryExists p with
  | Except.ok true =>
    match env.metadata p with
    | Except.error e => ([Event.probe p], Except.error e)
    | Except.ok true => ([Event.probe p, Event.removeDirAll p], env.removeDir p)
    | Except.ok false => ([Event.probe p, Event.removeFile p], env.removeFile p)
  | _ => ([Event.probe p], Except.ok ())

/-- `remove`: the stray-path remover, `removeOne` over the list with `?`
semantics. -/
def remove (env : Env) : List String → Res Unit
  | [] => ([], Except.ok ())
  | p :: rest => bindR (removeOne env p) fun _ => remove env rest

/-- `git_add_commit`: `git -C <path> add .` then `git -C <path> commit -m`. -/
def git_add_commit (env : Env) (wordpress_path message : String) : Res Unit :=
  bindR (stream_command env "git" ["-C", wordpress_path, "add", "."]) fun _ =>
    stream_command env "git" ["-C", wordpress_path, "commit", "-m", message]

/-- `update`: the single-shot driver — optional backup, the update action,
stray-path cleanup (each configured path with only `{wordpress_path}`
substituted), optional commit. -/
def update (env : Env) (wordpress_path : String) (remove_paths : List String)
    (maybeBackup : Option (Unit → Res Unit)) (updateFn : Unit → Res Unit)
    (maybeCommit : Option (Unit → Res Unit)) : Res Unit :=
  bindR (match maybeBackup with | some f => f () | none => okR ()) fun _ =>
  bindR (updateFn ()) fun _ =>
  bindR (remove env (remove_paths.map fun p => rustReplace p "{wordpress_path}" wordpress_path))
    fun _ =>
  match maybeCommit with | some f => f () | none => okR ()

/-- The body of `update_in_steps`' per-item loop: optional item backup, the
item update invocation, stray-path cleanup, optional item commit; the first
error aborts the remaining items. -/
def itemLoop (env : Env) (wordpress_path subcommand : String) (rp : List String)
    (maybeBackup : Option (String → Res Unit))
    (maybeCommit : Option (String → String → String → Res Unit)) : List Update → Res Unit
  | [] => ([], Except.ok ())
  | u :: rest =>
    bindR (match maybeBackup with | some f => f u.name | none => okR ()) fun _ =>
    bindR (stream_command env "wp"
        [subcommand, "update", u.name, "--path=" ++ wordpress_path]) fun _ =>
    bindR (remove env rp) fun _ =>
    bindR (match maybeCommit with
        | some f => f u.name u.version u.update_version
        | none => okR ()) fun _ =>
    itemLoop env wordpress_path subcommand rp maybeBackup maybeCommit rest

/-- `update_in_steps`: query the items with an available update, decode,
substitute `{wordpress_path}` into the configured remove paths once, and
run the per-item loop over the candidates whose name is not excluded. -/
def update_in_steps (env : Env) (wordpress_path : String) (remove_paths : List String)
    (maybeBackup : Option (String → Res Unit)) (exclude : List String)
    (maybeCommit : Option (String → String → String → Res Unit))
    (subcommand : String) : Res Unit :=
  bindR (captureText env "wp"
      [subcommand, "list", "--update=available", "--fields=name,version,update_version",
        "--format=json", "--path=" ++ wordpress_path]) fun raw =>
    match decodeUpdates raw with
    | Except.error e => ([], Except.error e)
    | Except.ok updates =>
      let rp := remove_paths.map fun p => rustReplace p "{wordpress_path}" wordpress_path
      itemLoop env wordpress_path subcommand rp maybeBackup maybeCommit
        (updates.filter fun u => !(exclude.contains u.name))

/-- The maintenance steps (`clap::ValueEnum Step`). -/
inductive Step
  | Core
  | Plugins
  | Themes
  | Translations
deriving DecidableEq, Repr

/-- The parsed command line (`struct Cli`); `commitPre` embeds the field
`commit_prefix`. -/
structure Cli where
  commitPre : Option String
  database_file_path : String
  exclude_plugins : List String
  exclude_themes : List String
  no_backup_database : Bool
  no_commit : Bool
  separator : String
  steps : List Step
  remove_paths : List String
  wordpress_path : String

/-- The backup destination the Core step resolves: `{wordpress_path}`,
then `{step}` ↦ `update_core`, then `{unix_time}`, by successive
`str::replace` passes. -/
def resolveCoreBackupPath (tmpl wordpress_path : String) (t : Nat) : String :=
  rustReplace
    (rustReplace (rustReplace tmpl "{wordpress_path}" wordpress_path) "{step}" "update_core")
    "{unix_time}" (toString t)

/-- The backup destination the Plugins step resolves for item `name`:
`{step}` ↦ `update_plugin.<name>`. -/
def resolvePluginBackupPath (tmpl wordpress_path name : String) (t : Nat) : String :=
  rustReplace
    (rustReplace (rustReplace tmpl "{wordpress_path}" wordpress_path) "{step}"
      ("update_plugin." ++ name))
    "{unix_time}" (toString t)

/-- The backup destination the Themes step resolves for item `name`. -/
def resolveThemeBackupPath (tmpl wordpress_path name : String) (t : Nat) : String :=
  rustReplace
    (rustReplace (rustReplace tmpl "{wordpress_path}" wordpress_path) "{step}"
      ("update_theme." ++ name))
    "{unix_time}" (toString t)

/-- The backup destination the Translations step resolves. -/
def resolveTranslationsBackupPath (tmpl wordpress_path : String) (t : Nat) : String :=
  rustReplace
    (rustReplace (rustReplace tmpl "{wordpress_path}" wordpress_path) "{step}"
      "update_translations")
    "{unix_time}" (toString t)

/-- `update_core`: build the optional backup hook, the core-update action
(fetch active plugins, deactivate them, `wp core update`, reactivate), and
— when committing — query the version first and build a commit hook that
queries it again inside the message; then run the single-shot driver. -/
def update_core (env : Env) (cli : Cli) (cp wordpress_path : String) : Res Unit :=
  let maybeBackup : Option (Unit → Res Unit) :=
    if cli.no_backup_database then none
    else some fun _ =>
      backup_database env wordpress_path
        (resolveCoreBackupPath cli.database_file_path wordpress_path env.now)
  let updateFn : Unit → Res Unit := fun _ =>
    bindR (get_active_plugins env wordpress_path) fun plugins =>
    bindR (activate_plugins env wordpress_path plugins false) fun _ =>
    bindR (stream_command env "wp" ["core", "update", "--path=" ++ wordpress_path]) fun _ =>
    activate_plugins env wordpress_path plugins true
  if cli.no_commit then
    update env wordpress_path cli.remove_paths maybeBackup updateFn none
  else
    bindR (get_wordpress_version env wordpress_path) fun version =>
    update env wordpress_path cli.remove_paths maybeBackup updateFn (some fun _ =>
      bindR (get_wordpress_version env wordpress_path) fun v2 =>
      git_add_commit env wordpress_path
        (cp ++ "Update WordPress Core" ++ cli.separator ++ version ++ " -> " ++ v2))

/-- `update_plugins`: per-item driver over `wp plugin …` with the plugin
exclusion list. -/
def update_plugins (env : Env) (cli : Cli) (cp wordpress_path : String) : Res Unit :=
  let maybeBackup : Option (String → Res Unit) :=
    if cli.no_backup_database then none
    else some fun name =>
      backup_database env wordpress_path
        (resolvePluginBackupPath cli.database_file_path wordpress_path name env.now)
  let maybeCommit : Option (String → String → String → Res Unit) :=
    if cli.no_commit then none
    else some fun name version update_version =>
      git_add_commit env wordpress_path
        (cp ++ "Update plugin" ++ cli.separator ++ name ++ cli.separator ++ version
          ++ " -> " ++ update_version)
  update_in_steps env wordpress_path cli.remove_paths maybeBackup cli.exclude_plugins
    maybeCommit "plugin"

/-- `update_themes`: per-item driver over `wp theme …` with the theme
exclusion list. -/
def update_themes (env : Env) (cli : Cli) (cp wordpress_path : String) : Res Unit :=
  let maybeBackup : Option (String → Res Unit) :=
    if cli.no_backup_database then none
    else some fun name =>
      backup_database env wordpress_path
        (resolveThemeBackupPath cli.database_file_path wordpress_path name env.now)
  let maybeCommit : Option (String → String → String → Res Unit) :=
    if cli.no_commit then none
    else some fun name version update_version =>
      git_add_commit env wordpress_path
        (cp ++ "Update theme" ++ cli.separator ++ name ++ cli.separator ++ version
          ++ " -> " ++ update_version)
  update_in_steps env wordpress_path cli.remove_paths maybeBackup cli.exclude_themes
    maybeCommit "theme"

/-- The PHP payload `update_translations` hands to `wp eval` (a single
bulk language-pack upgrade covering core, themes and plugins). -/
def translationsEvalArg : String :=
  "require_once ABSPATH . \x27wp-admin/includes/class-wp-upgrader.php\x27; (new Language_Pack_Upgrader(new Language_Pack_Upgrader_Skin([\x27url\x27 => \x27update-core.php?action=do-translation-upgrade\x27, \x27nonce\x27 => \x27upgrade-translations\x27, \x27title\x27 => __(\x27Update Translations\x27), \x27context\x27 => WP_LANG_DIR])))->bulk_upgrade();"

/-- `update_translations` (lib.rs): optional backup, one `wp eval`
invocation running the bulk language-pack upgrade, optional commit, via
the single-shot driver. -/
def update_translations (env : Env) (cli : Cli) (cp wordpress_path : String) : Res Unit :=
  let maybeBackup : Option (Unit → Res Unit) :=
    if cli.no_backup_database then none
    else some fun _ =>
      backup_database env wordpress_path
        (resolveTranslationsBackupPath cli.database_file_path wordpress_path env.now)
  let updateFn : Unit → Res Unit := fun _ =>
    stream_command env "wp" ["eval", translationsEvalArg, "--path=" ++ wordpress_path]
  let maybeCommit : Option (Unit → Res Unit) :=
    if cli.no_commit then none
    else some fun _ =>
      git_add_commit env wordpress_path (cp ++ "Update translations")
  update env wordpress_path cli.remove_paths maybeBackup updateFn maybeCommit

/-- The commit-message prefix `main_loop` computes before the loop:
`<prefix><separator>` when committing with a configured prefix, else the
empty string. -/
def commitPrefixOf (cli : Cli) : String :=
  match cli.no_commit, cli.commitPre with
  | false, some p => p ++ cli.separator
  | _, _ => ""

/-- The dispatch of one configured step to its handler. -/
def stepRun (env : Env) (cli : Cli) (cp wordpress_path : String) : Step → Res Unit
  | Step.Core => update_core env cli cp wordpress_path
  | Step.Plugins => update_plugins env cli cp wordpress_path
  | Step.Themes => update_themes env cli cp wordpress_path
  | Step.Translations => update_translations env cli cp wordpress_path

/-- The `for step in cli.steps` loop with `?` on each handler. -/
def runSteps (env : Env) (cli : Cli) (cp wordpress_path : String) : List Step → Res Unit
  | [] => ([], Except.ok ())
  | s :: rest => bindR (stepRun env cli cp wordpress_path s) fun _ =>
      runSteps env cli cp wordpress_path rest

/-- `main_loop` (lib.rs): compute the commit prefix once, then run the
configured steps in order, aborting on the first failure. -/
def main_loop (env : Env) (cli : Cli) : Res Unit :=
  runSteps env cli (commitPrefixOf cli) cli.wordpress_path cli.steps

/-- `update_translations` of the older standalone revision src/src/main.rs:
optional backup, three distinct `wp language … update` invocations (core,
all themes, all plugins), optional commit.  That revision's commit hooks
return no result (`let _ =` discards the commit error), so the commit hook
is modelled as events only. -/
def mainrs_update_translations (env : Env) (maybeBackup : Option (Unit → Res Unit))
    (maybeCommit : Option (Unit → List Event)) : Res Unit :=
  bindR (match maybeBackup with | some f => f () | none => okR ()) fun _ =>
  bindR (stream_command env "wp" ["language", "core", "update"]) fun _ =>
  bindR (stream_command env "wp" ["language", "theme", "update", "--all"]) fun _ =>
  bindR (stream_command env "wp" ["language", "plugin", "update", "--all"]) fun _ =>
  match maybeCommit with
  | some f => (f (), Except.ok ())
  | none => okR ()

/-!  Concrete environments and configurations used to instantiate the
theorems below.  -/

/-- A world where every call succeeds: spawns exit cleanly with no output,
captures return empty text, no stray path exists. -/
def baseEnv : Env where
  spawn := fun _ _ => SpawnOutcome.spawned true [] false
  capture := fun _ _ => Except.ok (some "")
  ensureParent := fun _ => Except.ok ()
  tryExists := fun _ => Except.ok false
  metadata := fun _ => Except.ok false
  removeDir := fun _ => Except.ok ()
  removeFile := fun _ => Except.ok ()
  now := 0

/-- A configuration with backup and commit disabled and no stray paths. -/
def cliBase : Cli where
  commitPre := none
  database_file_path := "/b/db.sql"
  exclude_plugins := []
  exclude_themes := []
  no_backup_database := true
  no_commit := true
  separator := ": "
  steps := []
  remove_paths := []
  wordpress_path := "/w"

/-- Like `baseEnv`, but version queries report 6.0. -/
def envVersioned : Env := { baseEnv with
  capture := fun _ args =>
    match args with
    | ["core", "version", _] => Except.ok (some "6.0")
    | _ => Except.ok (some "") }

/-- `cliBase` with backup and commit enabled. -/
def cliBC : Cli := { cliBase with no_backup_database := false, no_commit := false }

/-- A world where every spawn fails. -/
def envSpawnFail : Env := { baseEnv with
  spawn := fun _ _ => SpawnOutcome.spawnErr "boom" }

/-- A world where every spawned command exits with a non-zero status. -/
def envExitNonZero : Env := { baseEnv with
  spawn := fun _ _ => SpawnOutcome.spawned true [] true }

/-- A world where every spawned command emits a line, then a line that is
not valid text, then another line. -/
def envBadLine : Env := { baseEnv with
  spawn := fun _ _ => SpawnOutcome.spawned true [some "a", none, some "b"] false }

/-- A world where every captured output is not valid text. -/
def envBadText : Env := { baseEnv with
  capture := fun _ _ => Except.ok none }

/-- A world where the list query returns a payload that begins with the
structured marker but is not parseable JSON. -/
def envUnparseable : Env := { baseEnv with
  capture := fun _ _ => Except.ok (some "[\x7b\"x") }

/-- List-query output reporting plugins foo (1.0 → 1.1) and bar
(2.0 → 2.1), preceded by informational noise. -/
def rawTwoItems : String :=
  "notice: deprecated\n[\x7b\"name\":\"foo\",\"version\":\"1.0\",\"update_version\":\"1.1\"\x7d,\x7b\"name\":\"bar\",\"version\":\"2.0\",\"update_version\":\"2.1\"\x7d]"

/-- A world where the list query reports plugins foo (1.0 → 1.1) and
bar (2.0 → 2.1), preceded by informational noise. -/
def envItems : Env := { baseEnv with
  capture := fun _ args =>
    match args with
    | ["plugin", "list", "--update=available", _, _, _] => Except.ok (some rawTwoItems)
    | _ => Except.ok (some "") }

/-- A world where every captured output is text with no structured marker. -/
def envNoMarker : Env := { baseEnv with
  capture := fun _ _ => Except.ok (some "no structured payload here") }

/-- List-query output reporting the single plugin foo (1.0 → 1.1),
preceded by informational noise. -/
def rawOneItem : String :=
  "notice\n[\x7b\"name\":\"foo\",\"version\":\"1.0\",\"update_version\":\"1.1\"\x7d]"

/-- A world where the list query reports a single plugin foo (1.0 → 1.1),
preceded by informational noise. -/
def envOneItem : Env := { baseEnv with
  capture := fun _ args =>
    match args with
    | ["plugin", "list", "--update=available", _, _, _] => Except.ok (some rawOneItem)
    | _ => Except.ok (some "") }

/-- A world where the only existing path is the directory `/w/c`. -/
def envDirAt : Env := { baseEnv with
  tryExists := fun p => Except.ok (p == "/w/c")
  metadata := fun _ => Except.ok true }

/-- A world where `/x` exists as a file but cannot be removed. -/
def envStuckFile : Env := { baseEnv with
  tryExists := fun p => Except.ok (p == "/x")
  removeFile := fun _ => Except.error "permission denied" }

/-!  Helper lemmas about the result type.  -/

theorem bindR_eq_ok {α β : Type} {r : Res α} {a : α} (f : α → Res β)
    (h : r.2 = Except.ok a) : bindR r f = (r.1 ++ (f a).1, (f a).2) := by
  obtain ⟨tr, x⟩ := r
  cases x with
  | error e => simp at h
  | ok b =>
    simp at h
    subst h
    rfl

theorem bindR_eq_error {α β : Type} {r : Res α} {e : String} (f : α → Res β)
    (h : r.2 = Except.error e) : bindR r f = (r.1, Except.error e) := by
  obtain ⟨tr, x⟩ := r
  cases x with
  | error e2 =>
    simp at h
    subst h
    rfl
  | ok b => simp at h

/-!  C1: the step orchestrator.  -/

theorem runSteps_all_ok (env : Env) (cli : Cli) (cp wp : String) (l : List Step)
    (h : ∀ s ∈ l, (stepRun env cli cp wp s).2 = Except.ok ()) :
    runSteps env cli cp wp l =
      ((l.map fun s => (stepRun env cli cp wp s).1).flatten, Except.ok ()) := by
  induction l with
  | nil => rfl
  | cons s rest ih =>
    have hs : (stepRun env cli cp wp s).2 = Except.ok () := h s (by simp)
    have ih2 := ih fun t ht => h t (by simp [ht])
    show bindR (stepRun env cli cp wp s) (fun _ => runSteps env cli cp wp rest) = _
    rw [bindR_eq_ok _ hs]
    simp [ih2]

theorem runSteps_first_error (env : Env) (cli : Cli) (cp wp : String) (s : Step)
    (post : List Step) (e : String) (pre : List Step)
    (hpre : ∀ t ∈ pre, (stepRun env cli cp wp t).2 = Except.ok ())
    (hs : (stepRun env cli cp wp s).2 = Except.error e) :
    runSteps env cli cp wp (pre ++ s :: post) =
      ((pre.map fun t => (stepRun env cli cp wp t).1).flatten ++ (stepRun env cli cp wp s).1,
        Except.error e) := by
  induction pre with
  | nil =>
    show bindR (stepRun env cli cp wp s) (fun _ => runSteps env cli cp wp post) = _
    rw [bindR_eq_error _ hs]
    simp
  | cons t rest ih =>
    have ht : (stepRun env cli cp wp t).2 = Except.ok () := hpre t (by simp)
    have ih2 := ih fun u hu => hpre u (by simp [hu])
    show bindR (stepRun env cli cp wp t) (fun _ => runSteps env cli cp wp (rest ++ s :: post)) = _
    rw [bindR_eq_ok _ ht]
    simp [ih2]

/-- C1: `main_loop` executes each configured step's handler to completion
in the configured order; when every handler succeeds it runs them all, and
when some handler fails, every earlier handler has run, no later step runs
(only the prefix's traces appear), and the failing handler's error is
returned to the caller unchanged. -/
theorem main_loop_step_sequence (env : Env) (cli : Cli) :
    ((∀ s ∈ cli.steps,
        (stepRun env cli (commitPrefixOf cli) cli.wordpress_path s).2 = Except.ok ()) →
      main_loop env cli =
        ((cli.steps.map fun s =>
            (stepRun env cli (commitPrefixOf cli) cli.wordpress_path s).1).flatten,
          Except.ok ()))
  ∧ ∀ pre (s : Step) post (e : String), cli.steps = pre ++ s :: post →
      (∀ t ∈ pre, (stepRun env cli (commitPrefixOf cli) cli.wordpress_path t).2 = Except.ok ()) →
      (stepRun env cli (commitPrefixOf cli) cli.wordpress_path s).2 = Except.error e →
      main_loop env cli =
        ((pre.map fun t =>
            (stepRun env cli (commitPrefixOf cli) cli.wordpress_path t).1).flatten
          ++ (stepRun env cli (commitPrefixOf cli) cli.wordpress_path s).1,
          Except.error e) := by
  constructor
  · intro h
    exact runSteps_all_ok env cli (commitPrefixOf cli) cli.wordpress_path cli.steps h
  · intro pre s post e hsteps hpre hs
    show runSteps env cli (commitPrefixOf cli) cli.wordpress_path cli.steps = _
    rw [hsteps]
    exact runSteps_first_error env cli (commitPrefixOf cli) cli.wordpress_path s post e pre hpre hs

/-- Witness for C1: with every spawn failing and steps `[Translations,
Core]`, the run performs only the translations invocation and surfaces the
spawn error `boom` unchanged; the Core step never runs. -/
theorem main_loop_step_sequence_witness :
    main_loop envSpawnFail { cliBase with steps := [Step.Translations, Step.Core] } =
      ([Event.spawnStream "wp" ["eval", translationsEvalArg, "--path=/w"]],
        Except.error "boom") :=
  ((main_loop_step_sequence envSpawnFail
      { cliBase with steps := [Step.Translations, Step.Core] }).2
    [] Step.Translations [Step.Core] "boom" rfl (by simp) rfl).trans (by rfl)

/-!  C8: the stray-file remover.  -/

/-- C8: for a path whose `try_exists` probe answers `false` the remover
skips it silently — no filesystem mutation, no error; an existing
directory is removed recursively; an existing file is removed with
`remove_file`; and a removal error on an existing path is fatal: it is
returned and the remaining paths are not processed. -/
theorem remove_path_policy (env : Env) (p : String) (rest : List String) (e : String) :
    (env.tryExists p = Except.ok false →
      removeOne env p = ([Event.probe p], Except.ok ())
        ∧ (removeOne env p).1.filter isMutation = [])
  ∧ (env.tryExists p = Except.ok true → env.metadata p = Except.ok true →
      removeOne env p = ([Event.probe p, Event.removeDirAll p], env.removeDir p))
  ∧ (env.tryExists p = Except.ok true → env.metadata p = Except.ok false →
      removeOne env p = ([Event.probe p, Event.removeFile p], env.removeFile p))
  ∧ ((removeOne env p).2 = Except.error e →
      remove env (p :: rest) = ((removeOne env p).1, Except.error e)) := by
  refine ⟨fun h1 => ?_, fun h1 h2 => ?_, fun h1 h2 => ?_, fun h => ?_⟩
  · simp [removeOne, h1, isMutation]
  · simp [removeOne, h1, h2]
  · simp [removeOne, h1, h2]
  · show bindR (removeOne env p) (fun _ => remove env rest) = _
    rw [bindR_eq_error _ h]

/-- Witness for C8: an absent path is skipped with no mutation; `/w/c`
(a directory) is removed recursively; `/x` (a stuck file) yields the
removal error, which aborts the rest of the list. -/
theorem remove_path_policy_witness :
    removeOne baseEnv "/q" = ([Event.probe "/q"], Except.ok ())
  ∧ removeOne envDirAt "/w/c" = ([Event.probe "/w/c", Event.removeDirAll "/w/c"], Except.ok ())
  ∧ removeOne envStuckFile "/x"
      = ([Event.probe "/x", Event.removeFile "/x"], Except.error "permission denied")
  ∧ remove envStuckFile ["/x", "/y"]
      = ([Event.probe "/x", Event.removeFile "/x"], Except.error "permission denied") :=
  ⟨((remove_path_policy baseEnv "/q" [] "e").1 rfl).1,
    ((remove_path_policy envDirAt "/w/c" [] "e").2.1 rfl rfl).trans (by rfl),
    ((remove_path_policy envStuckFile "/x" [] "e").2.2.1 rfl rfl).trans (by rfl),
    ((remove_path_policy envStuckFile "/x" ["/y"] "permission denied").2.2.2 (by rfl)).trans
      (by rfl)⟩

/-!  Lemmas about replacement and about the leaf operations.  -/

theorem replaceGo_of_not_contains (pat rep : Chars) (fuel : Nat) :
    ∀ s : Chars, containsSubL pat s = false → replaceGo pat rep fuel s = s := by
  induction fuel with
  | zero =>
    intro s _
    cases s <;> rfl
  | succ f ih =>
    intro s h
    cases s with
    | nil => rfl
    | cons c rest =>
      simp only [containsSubL, Bool.or_eq_false_iff] at h
      simp only [replaceGo]
      rw [if_neg (by simp [h.1]), ih rest h.2]

theorem asString_toList (s : String) : s.toList.asString = s := by
  cases s
  rfl

/-- A pattern that does not occur in the subject leaves it unchanged:
the "left verbatim" half of `str::replace`. -/
theorem rustReplace_of_not_contains (s pat rep : String) (h : containsSub pat s = false) :
    rustReplace s pat rep = s := by
  unfold rustReplace replaceAllL
  rw [replaceGo_of_not_contains pat.toList rep.toList s.toList.length s.toList h]
  exact asString_toList s

theorem stream_command_spawned (env : Env) (prog : String) (args : List String)
    (lines : List (Option String)) (nz : Bool)
    (h : env.spawn prog args = SpawnOutcome.spawned true lines nz) :
    stream_command env prog args
      = (Event.spawnStream prog args :: printedLines lines, Except.ok ()) := by
  simp [stream_command, h]

theorem stream_command_ok (env : Env) (prog : String) (args : List String)
    (h : env.spawn prog args = SpawnOutcome.spawned true [] false) :
    stream_command env prog args = ([Event.spawnStream prog args], Except.ok ()) := by
  simp [stream_command, h, printedLines]

theorem stream_command_spawn_error (env : Env) (prog : String) (args : List String)
    (e : String) (h : env.spawn prog args = SpawnOutcome.spawnErr e) :
    stream_command env prog args = ([Event.spawnStream prog args], Except.error e) := by
  simp [stream_command, h]

theorem captureText_ok (env : Env) (prog : String) (args : List String) (s : String)
    (h : env.capture prog args = Except.ok (some s)) :
    captureText env prog args = ([Event.capture prog args], Except.ok s) := by
  simp [captureText, h]

theorem captureText_invalid (env : Env) (prog : String) (args : List String)
    (h : env.capture prog args = Except.ok none) :
    captureText env prog args
      = ([Event.capture prog args], Except.error "invalid utf-8 in output") := by
  simp [captureText, h]

theorem backup_database_ok (env : Env) (wp path : String)
    (h1 : env.ensureParent path = Except.ok ())
    (h2 : env.spawn "wp" ["db", "export", path, "--defaults", "--path=" ++ wp]
      = SpawnOutcome.spawned true [] false) :
    backup_database env wp path
      = ([Event.ensureParent path,
          Event.spawnStream "wp" ["db", "export", path, "--defaults", "--path=" ++ wp]],
        Except.ok ()) := by
  unfold backup_database ensurePathParent
  rw [bindR_eq_ok _ h1, stream_command_ok env _ _ h2]
  rfl

theorem remove_all_absent (env : Env) (h : ∀ p, env.tryExists p = Except.ok false) :
    ∀ rp : List String, remove env rp = (rp.map Event.probe, Except.ok ()) := by
  intro rp
  induction rp with
  | nil => rfl
  | cons p rest ih =>
    show bindR (removeOne env p) (fun _ => remove env rest) = _
    have h1 : removeOne env p = ([Event.probe p], Except.ok ()) := by simp [removeOne, h p]
    rw [h1, bindR_eq_ok _ rfl]
    simp [ih]

/-!  C6: exit-status handling of the process streamer.  -/

/-- C6 counterexample: a process that spawns, yields its stdout and exits
with a non-zero status makes `stream_command` return success — the exit
status is never inspected, so a non-zero exit is not propagated as an
error. -/
theorem stream_command_nonzero_counterexample :
    envExitNonZero.spawn "wp" ["core", "update", "--path=/w"]
      = SpawnOutcome.spawned true [] true
  ∧ stream_command envExitNonZero "wp" ["core", "update", "--path=/w"]
      = ([Event.spawnStream "wp" ["core", "update", "--path=/w"]], Except.ok ()) :=
  ⟨rfl, rfl⟩

/-- C6 (amended): the streamer propagates a spawn failure as an error, but
once the child is spawned with its stdout captured the invocation returns
success regardless of the child's exit status. -/
theorem stream_command_exit_status (env : Env) (prog : String) (args : List String)
    (e : String) (lines : List (Option String)) (nz : Bool) :
    (env.spawn prog args = SpawnOutcome.spawnErr e →
      stream_command env prog args = ([Event.spawnStream prog args], Except.error e))
  ∧ (env.spawn prog args = SpawnOutcome.spawned true lines nz →
      stream_command env prog args
        = (Event.spawnStream prog args :: printedLines lines, Except.ok ())) :=
  ⟨fun h => stream_command_spawn_error env prog args e h,
    fun h => stream_command_spawned env prog args lines nz h⟩

/-- Witness for C6 (amended): a failing spawn yields its error; a clean
spawn that exits non-zero yields success. -/
theorem stream_command_exit_status_witness :
    stream_command envSpawnFail "git" ["-C", "/w", "add", "."]
      = ([Event.spawnStream "git" ["-C", "/w", "add", "."]], Except.error "boom")
  ∧ stream_command envExitNonZero "git" ["-C", "/w", "add", "."]
      = ([Event.spawnStream "git" ["-C", "/w", "add", "."]], Except.ok ()) :=
  ⟨(stream_command_exit_status envSpawnFail "git" ["-C", "/w", "add", "."] "boom" [] false).1 rfl,
    ((stream_command_exit_status envExitNonZero "git" ["-C", "/w", "add", "."] "e" [] true).2
      rfl).trans (by rfl)⟩

/-!  C9: invalid text in subprocess output.  -/

theorem printedLines_append_none (l2 : List (Option String)) :
    ∀ l1 : List (Option String), (∀ x ∈ l1, x.isSome = true) →
      printedLines (l1 ++ none :: l2)
        = l1.map fun x => Event.printLine (x.getD "") := by
  intro l1
  induction l1 with
  | nil =>
    intro _
    rfl
  | cons x rest ih =>
    intro h
    cases x with
    | none => exact absurd (h none (by simp)) (by simp)
    | some s => simp [printedLines, ih fun y hy => h y (by simp [hy])]

/-- C9 counterexample: a streamed invocation whose stdout contains a line
that is not valid text returns success, not an error; the streaming just
stops silently at the bad line (here only `a` is forwarded, `b` is lost). -/
theorem stream_bad_line_counterexample :
    envBadLine.spawn "wp" ["plugin", "update", "foo", "--path=/w"]
      = SpawnOutcome.spawned true [some "a", none, some "b"] false
  ∧ stream_command envBadLine "wp" ["plugin", "update", "foo", "--path=/w"]
      = ([Event.spawnStream "wp" ["plugin", "update", "foo", "--path=/w"],
          Event.printLine "a"], Except.ok ()) :=
  ⟨rfl, rfl⟩

/-- C9 (amended): a streamed invocation with an undecodable stdout line
returns success, forwarding only the lines before the bad one; a
single-value query (the version query) whose captured output is not valid
text returns an error. -/
theorem decode_failure_policy (env : Env) (prog wp : String) (args : List String)
    (l1 l2 : List (Option String)) (nz : Bool) :
    ((∀ x ∈ l1, x.isSome = true) →
      env.spawn prog args = SpawnOutcome.spawned true (l1 ++ none :: l2) nz →
      stream_command env prog args
        = (Event.spawnStream prog args :: (l1.map fun x => Event.printLine (x.getD "")),
          Except.ok ()))
  ∧ (env.capture "wp" ["core", "version", "--path=" ++ wp] = Except.ok none →
      get_wordpress_version env wp
        = ([Event.capture "wp" ["core", "version", "--path=" ++ wp]],
          Except.error "invalid utf-8 in output")) := by
  constructor
  · intro hl hsp
    rw [stream_command_spawned env prog args _ nz hsp, printedLines_append_none l2 l1 hl]
  · intro hcap
    exact captureText_invalid env "wp" _ hcap

/-- Witness for C9 (amended): the bad-line world streams only `a` yet
succeeds, and the invalid-text world makes the version query fail. -/
theorem decode_failure_policy_witness :
    stream_command envBadLine "wp" ["theme", "update", "t", "--path=/w"]
      = ([Event.spawnStream "wp" ["theme", "update", "t", "--path=/w"],
          Event.printLine "a"], Except.ok ())
  ∧ get_wordpress_version envBadText "/w"
      = ([Event.capture "wp" ["core", "version", "--path=/w"]],
          Except.error "invalid utf-8 in output") :=
  ⟨((decode_failure_policy envBadLine "wp" "/w" ["theme", "update", "t", "--path=/w"]
        [some "a"] [some "b"] false).1 (by simp) rfl).trans (by rfl),
    ((decode_failure_policy envBadText "wp" "/w" [] [] [] false).2 rfl).trans (by rfl)⟩

/-!  C7: the template resolver.  -/

/-- C7 counterexample: resolving the core backup template
`{wordpress_path}` with an installation path whose value contains the text
`{step}` does NOT leave that text verbatim — the later `{step}` pass
substitutes inside the already-substituted value. -/
theorem template_resubstitution_counterexample :
    resolveCoreBackupPath "{wordpress_path}" "/a/{step}" 7 = "/a/update_core"
  ∧ "/a/update_core" ≠ "/a/{step}" :=
  ⟨rfl, by decide⟩

/-- C7 (amended): resolution is three ordered global replaces —
`{wordpress_path}`, then `{step}` (with the item name interpolated for
per-item steps), then `{unix_time}`.  Within one pass a replacement value
is never rescanned, and the text of an earlier pass's placeholder inside a
later-substituted value is left verbatim; but a later placeholder's text
inside an earlier-substituted value IS substituted by the later pass. -/
theorem template_resolution_order :
    (∀ t : Nat, resolveCoreBackupPath "{wordpress_path}" "/a/{step}" t = "/a/update_core")
  ∧ (∀ t : Nat,
      resolvePluginBackupPath "{step}" "/w" "{wordpress_path}" t
        = "update_plugin.{wordpress_path}")
  ∧ rustReplace "{step}" "{step}" "x{step}y" = "x{step}y"
  ∧ ∀ s pat rep : String, containsSub pat s = false → rustReplace s pat rep = s := by
  refine ⟨fun t => ?_, fun t => ?_, rfl, fun s pat rep h => rustReplace_of_not_contains s pat rep h⟩
  · show rustReplace
        (rustReplace (rustReplace "{wordpress_path}" "{wordpress_path}" "/a/{step}")
          "{step}" "update_core")
        "{unix_time}" (toString t) = _
    rw [show rustReplace (rustReplace "{wordpress_path}" "{wordpress_path}" "/a/{step}")
        "{step}" "update_core" = "/a/update_core" from rfl]
    exact rustReplace_of_not_contains "/a/update_core" "{unix_time}" (toString t) rfl
  · show rustReplace
        (rustReplace (rustReplace "{step}" "{wordpress_path}" "/w")
          "{step}" ("update_plugin." ++ "{wordpress_path}"))
        "{unix_time}" (toString t) = _
    rw [show rustReplace (rustReplace "{step}" "{wordpress_path}" "/w")
        "{step}" ("update_plugin." ++ "{wordpress_path}") = "update_plugin.{wordpress_path}"
      from rfl]
    exact rustReplace_of_not_contains "update_plugin.{wordpress_path}" "{unix_time}"
      (toString t) rfl

/-- Witness for C7 (amended). -/
theorem template_resolution_order_witness :
    resolveCoreBackupPath "{wordpress_path}" "/a/{step}" 7 = "/a/update_core"
  ∧ resolvePluginBackupPath "{step}" "/w" "{wordpress_path}" 3
      = "update_plugin.{wordpress_path}"
  ∧ rustReplace "/q" "{step}" "s" = "/q" :=
  ⟨template_resolution_order.1 7, template_resolution_order.2.1 3,
    template_resolution_order.2.2.2 "/q" "{step}" "s" rfl⟩

/-!  C10: stray-path substitution in the two update drivers.  -/

/-- C10: before removal, each configured stray path receives exactly one
substitution — `{wordpress_path}` — in both drivers: the single-shot
driver probes exactly the once-substituted paths, the per-item driver maps
the paths once before its loop and reuses them for the item, and any
`{step}`, `{unix_time}` or item-name placeholder text in a configured
remove path survives verbatim into the path handed to the remover. -/
theorem remove_path_substitution (env : Env) (wp : String) (rp : List String)
    (updateFn : Unit → Res Unit) (tf : List Event) (u : Update) (sub raw : String)
    (exclude : List String) :
    ((∀ p, env.tryExists p = Except.ok false) → updateFn () = (tf, Except.ok ()) →
      update env wp rp none updateFn none
        = (tf ++ (rp.map fun p => rustReplace p "{wordpress_path}" wp).map Event.probe,
          Except.ok ()))
  ∧ ((∀ p, env.tryExists p = Except.ok false) →
      (∀ prog args, env.spawn prog args = SpawnOutcome.spawned true [] false) →
      env.capture "wp"
          [sub, "list", "--update=available", "--fields=name,version,update_version",
            "--format=json", "--path=" ++ wp] = Except.ok (some raw) →
      decodeUpdates raw = Except.ok [u] → exclude.contains u.name = false →
      update_in_steps env wp rp none exclude none sub
        = ([Event.capture "wp"
              [sub, "list", "--update=available", "--fields=name,version,update_version",
                "--format=json", "--path=" ++ wp],
            Event.spawnStream "wp" [sub, "update", u.name, "--path=" ++ wp]]
            ++ (rp.map fun p => rustReplace p "{wordpress_path}" wp).map Event.probe,
          Except.ok ()))
  ∧ rustReplace "{wordpress_path}/x/{step}.{unix_time}" "{wordpress_path}" "/w"
      = "/w/x/{step}.{unix_time}"
  ∧ ∀ p : String, containsSub "{wordpress_path}" p = false →
      rustReplace p "{wordpress_path}" wp = p := by
  refine ⟨fun habs hup => ?_, fun habs hsp hcap hdec hexc => ?_, rfl,
    fun p h => rustReplace_of_not_contains p "{wordpress_path}" wp h⟩
  · have hr := remove_all_absent env habs
    simp [update, bindR, okR, hup, hr]
  · have hs := stream_command_ok env "wp" [sub, "update", u.name, "--path=" ++ wp]
      (hsp "wp" [sub, "update", u.name, "--path=" ++ wp])
    have hc := captureText_ok env "wp"
      [sub, "list", "--update=available", "--fields=name,version,update_version",
        "--format=json", "--path=" ++ wp] raw hcap
    have hr := remove_all_absent env habs
    have hexc2 : ¬ u.name ∈ exclude := by simpa using hexc
    simp [update_in_steps, itemLoop, bindR, okR, hc, hdec, hexc2, hs, hr]

/-- Witness for C10: a configured path keeps its `{step}`/`{unix_time}`
text while `{wordpress_path}` is substituted, in both drivers. -/
theorem remove_path_substitution_witness :
    update baseEnv "/w" ["{wordpress_path}/x/{step}.{unix_time}"] none (fun _ => okR ()) none
      = ([Event.probe "/w/x/{step}.{unix_time}"], Except.ok ())
  ∧ update_in_steps envOneItem "/w" ["{wordpress_path}/c.{unix_time}"] none ["bar"] none "plugin"
      = ([Event.capture "wp"
            ["plugin", "list", "--update=available", "--fields=name,version,update_version",
              "--format=json", "--path=/w"],
          Event.spawnStream "wp" ["plugin", "update", "foo", "--path=/w"],
          Event.probe "/w/c.{unix_time}"],
        Except.ok ())
  ∧ rustReplace "/plain/{step}" "{wordpress_path}" "/base"
      = "/plain/{step}" :=
  ⟨((remove_path_substitution baseEnv "/w" ["{wordpress_path}/x/{step}.{unix_time}"]
        (fun _ => okR ()) [] ⟨"foo", "1.0", "1.1"⟩ "plugin" "" []).1
      (fun _ => rfl) rfl).trans (by rfl),
    ((remove_path_substitution envOneItem "/w" ["{wordpress_path}/c.{unix_time}"]
        (fun _ => okR ()) [] ⟨"foo", "1.0", "1.1"⟩ "plugin" rawOneItem ["bar"]).2.1
      (fun _ => rfl) (fun _ _ => rfl) rfl (by rfl) rfl).trans (by rfl),
    (remove_path_substitution baseEnv "/base" [] (fun _ => okR ()) []
        ⟨"foo", "1.0", "1.1"⟩ "plugin" "" []).2.2.2 "/plain/{step}" rfl⟩

/-!  C3 and C5: the list query, its decode and the exclusion filter.  -/

/-- A successful list query with decodable payload reduces
`update_in_steps` to the per-item loop over the decoded candidates whose
name is not excluded. -/
theorem update_in_steps_decoded (env : Env) (wp : String) (rp : List String)
    (mb : Option (String → Res Unit)) (exclude : List String)
    (mc : Option (String → String → String → Res Unit)) (sub raw : String) (L : List Update)
    (h1 : env.capture "wp"
        [sub, "list", "--update=available", "--fields=name,version,update_version",
          "--format=json", "--path=" ++ wp] = Except.ok (some raw))
    (h2 : decodeUpdates raw = Except.ok L) :
    update_in_steps env wp rp mb exclude mc sub
      = (Event.capture "wp"
            [sub, "list", "--update=available", "--fields=name,version,update_version",
              "--format=json", "--path=" ++ wp]
          :: (itemLoop env wp sub (rp.map fun p => rustReplace p "{wordpress_path}" wp) mb mc
              (L.filter fun u => !(exclude.contains u.name))).1,
        (itemLoop env wp sub (rp.map fun p => rustReplace p "{wordpress_path}" wp) mb mc
            (L.filter fun u => !(exclude.contains u.name))).2) := by
  have hc := captureText_ok env "wp"
    [sub, "list", "--update=available", "--fields=name,version,update_version",
      "--format=json", "--path=" ++ wp] raw h1
  unfold update_in_steps
  rw [hc, bindR_eq_ok _ rfl]
  simp [h2]

/-- C3: the per-item loop processes exactly the decoded candidates whose
name is not in the exclusion set, in their original relative order; an
excluded candidate is not in the processed list, so it is never handed to
the backup hook, the update invocation or the commit hook. -/
theorem excluded_items_filtered (env : Env) (wp : String) (rp : List String)
    (mb : Option (String → Res Unit)) (exclude : List String)
    (mc : Option (String → String → String → Res Unit)) (sub raw : String) (L : List Update)
    (h1 : env.capture "wp"
        [sub, "list", "--update=available", "--fields=name,version,update_version",
          "--format=json", "--path=" ++ wp] = Except.ok (some raw))
    (h2 : decodeUpdates raw = Except.ok L) :
    (update_in_steps env wp rp mb exclude mc sub
      = (Event.capture "wp"
            [sub, "list", "--update=available", "--fields=name,version,update_version",
              "--format=json", "--path=" ++ wp]
          :: (itemLoop env wp sub (rp.map fun p => rustReplace p "{wordpress_path}" wp) mb mc
              (L.filter fun u => !(exclude.contains u.name))).1,
        (itemLoop env wp sub (rp.map fun p => rustReplace p "{wordpress_path}" wp) mb mc
            (L.filter fun u => !(exclude.contains u.name))).2))
  ∧ (∀ u : Update, u ∈ (L.filter fun u => !(exclude.contains u.name))
      ↔ u ∈ L ∧ exclude.contains u.name = false)
  ∧ (L.filter fun u => !(exclude.contains u.name)).Sublist L := by
  refine ⟨update_in_steps_decoded env wp rp mb exclude mc sub raw L h1 h2, fun u => ?_,
    List.filter_sublist L⟩
  simp [List.mem_filter]

/-- Witness for C3: with candidates foo and bar and exclusion list
`[bar]`, the step updates exactly foo, and bar is not in the processed
list. -/
theorem excluded_items_filtered_witness :
    update_in_steps envItems "/w" [] none ["bar"] none "plugin"
      = ([Event.capture "wp"
            ["plugin", "list", "--update=available", "--fields=name,version,update_version",
              "--format=json", "--path=/w"],
          Event.spawnStream "wp" ["plugin", "update", "foo", "--path=/w"]],
        Except.ok ())
  ∧ (⟨"bar", "2.0", "2.1"⟩ : Update)
      ∉ (([⟨"foo", "1.0", "1.1"⟩, ⟨"bar", "2.0", "2.1"⟩] : List Update).filter
          fun u => !((["bar"] : List String).contains u.name)) := by
  have h := excluded_items_filtered envItems "/w" [] none ["bar"] none "plugin"
    rawTwoItems [⟨"foo", "1.0", "1.1"⟩, ⟨"bar", "2.0", "2.1"⟩] rfl (by rfl)
  exact ⟨h.1.trans (by rfl),
    fun hm => absurd ((h.2.1 ⟨"bar", "2.0", "2.1"⟩).mp hm).2 (by decide)⟩

/-- C5 counterexample: list output that begins with the structured marker
but is not parseable JSON does NOT yield an empty item list — the decode
error is propagated and the invocation fails. -/
theorem unparseable_payload_counterexample :
    getJsonStr "[\x7b\"x" = some "[\x7b\"x"
  ∧ update_in_steps envUnparseable "/w" [] none [] none "plugin"
      = ([Event.capture "wp"
            ["plugin", "list", "--update=available", "--fields=name,version,update_version",
              "--format=json", "--path=/w"]],
          Except.error "invalid JSON") :=
  ⟨rfl, rfl⟩

/-- C5 (amended): when the structured marker is absent from the list
output, the decoder yields an empty item list and the invocation succeeds
doing nothing further; but when a payload is found and fails to parse, the
decode error fails the invocation. -/
theorem list_decode_policy (env : Env) (wp : String) (rp : List String)
    (mb : Option (String → Res Unit)) (exclude : List String)
    (mc : Option (String → String → String → Res Unit)) (sub raw e : String)
    (hcap : env.capture "wp"
        [sub, "list", "--update=available", "--fields=name,version,update_version",
          "--format=json", "--path=" ++ wp] = Except.ok (some raw)) :
    (getJsonStr raw = none →
      update_in_steps env wp rp mb exclude mc sub
        = ([Event.capture "wp"
              [sub, "list", "--update=available", "--fields=name,version,update_version",
                "--format=json", "--path=" ++ wp]],
          Except.ok ()))
  ∧ (decodeUpdates raw = Except.error e →
      update_in_steps env wp rp mb exclude mc sub
        = ([Event.capture "wp"
              [sub, "list", "--update=available", "--fields=name,version,update_version",
                "--format=json", "--path=" ++ wp]],
          Except.error e)) := by
  have hc := captureText_ok env "wp"
    [sub, "list", "--update=available", "--fields=name,version,update_version",
      "--format=json", "--path=" ++ wp] raw hcap
  constructor
  · intro hg
    have h2 : decodeUpdates raw = Except.ok [] := by
      unfold decodeUpdates
      rw [hg]
      rfl
    have h3 := update_in_steps_decoded env wp rp mb exclude mc sub raw [] hcap h2
    simpa [itemLoop] using h3
  · intro he
    unfold update_in_steps
    rw [hc, bindR_eq_ok _ rfl]
    simp [he]

/-- Witness for C5 (amended): output with no structured marker yields an
empty run that still succeeds. -/
theorem list_decode_policy_witness :
    update_in_steps envNoMarker "/w" ["x"] none [] none "theme"
      = ([Event.capture "wp"
            ["theme", "list", "--update=available", "--fields=name,version,update_version",
              "--format=json", "--path=/w"]],
        Except.ok ()) :=
  (list_decode_policy envNoMarker "/w" ["x"] none [] none "theme"
      "no structured payload here" "e" rfl).1 rfl

/-!  C2: the Core step's call sequence.  -/

theorem get_active_plugins_ok (env : Env) (wp raw : String) (plugins : List String)
    (h1 : env.capture "wp"
        ["plugin", "list", "--fields=name", "--status=active", "--format=json",
          "--path=" ++ wp] = Except.ok (some raw))
    (h2 : decodePluginNames raw = Except.ok plugins) :
    get_active_plugins env wp
      = ([Event.capture "wp"
            ["plugin", "list", "--fields=name", "--status=active", "--format=json",
              "--path=" ++ wp]],
        Except.ok plugins) := by
  have hc := captureText_ok env "wp"
    ["plugin", "list", "--fields=name", "--status=active", "--format=json", "--path=" ++ wp]
    raw h1
  unfold get_active_plugins
  rw [hc, bindR_eq_ok _ rfl]
  simp [h2]

theorem git_add_commit_ok (env : Env) (wp msg : String)
    (ha : env.spawn "git" ["-C", wp, "add", "."] = SpawnOutcome.spawned true [] false)
    (hcm : env.spawn "git" ["-C", wp, "commit", "-m", msg] = SpawnOutcome.spawned true [] false) :
    git_add_commit env wp msg
      = ([Event.spawnStream "git" ["-C", wp, "add", "."],
          Event.spawnStream "git" ["-C", wp, "commit", "-m", msg]],
        Except.ok ()) := by
  unfold git_add_commit
  rw [stream_command_ok env _ _ ha, bindR_eq_ok _ rfl, stream_command_ok env _ _ hcm]
  rfl

/-- C2 counterexample: with backup and commit enabled, the Core step's
trace puts the database export (index 2) BEFORE the active-plugin fetch
(index 3): the export is written first, then the active plugins are
queried — not fetch-then-export as claimed.  (The old-version query is the
very first call, before either.) -/
theorem core_backup_before_plugin_fetch_counterexample :
    (update_core envVersioned cliBC "" "/w").1
      = [Event.capture "wp" ["core", "version", "--path=/w"],
         Event.ensureParent "/b/db.sql",
         Event.spawnStream "wp" ["db", "export", "/b/db.sql", "--defaults", "--path=/w"],
         Event.capture "wp"
           ["plugin", "list", "--fields=name", "--status=active", "--format=json", "--path=/w"],
         Event.spawnStream "wp" ["plugin", "deactivate", "--path=/w"],
         Event.spawnStream "wp" ["core", "update", "--path=/w"],
         Event.spawnStream "wp" ["plugin", "activate", "--path=/w"],
         Event.capture "wp" ["core", "version", "--path=/w"],
         Event.spawnStream "git" ["-C", "/w", "add", "."],
         Event.spawnStream "git" ["-C", "/w", "commit", "-m", "Update WordPress Core: 6.0 -> 6.0"]]
  ∧ (update_core envVersioned cliBC "" "/w").1.findIdx
        (fun ev => ev == Event.spawnStream "wp"
          ["db", "export", "/b/db.sql", "--defaults", "--path=/w"])
      < (update_core envVersioned cliBC "" "/w").1.findIdx
        (fun ev => ev == Event.capture "wp"
          ["plugin", "list", "--fields=name", "--status=active", "--format=json", "--path=/w"]) :=
  ⟨rfl, by decide⟩

/-- C2 (amended): with backup and commit enabled the Core step performs
exactly: the old-version query, then the database export, then the
active-plugin fetch, then deactivation of those plugins, then the core
update, then reactivation of the same plugin set, then the stray-path
probes, then the new-version query and the commit naming both queried
versions — the two version queries are dedicated invocations bracketing
the update. -/
theorem update_core_sequence (env : Env) (cli : Cli) (cp wp v rawP : String)
    (plugins : List String)
    (hb : cli.no_backup_database = false) (hc : cli.no_commit = false)
    (hver : env.capture "wp" ["core", "version", "--path=" ++ wp] = Except.ok (some v))
    (hpl : env.capture "wp"
        ["plugin", "list", "--fields=name", "--status=active", "--format=json",
          "--path=" ++ wp] = Except.ok (some rawP))
    (hdec : decodePluginNames rawP = Except.ok plugins)
    (hmk : env.ensureParent (resolveCoreBackupPath cli.database_file_path wp env.now)
      = Except.ok ())
    (hsp : ∀ prog args, env.spawn prog args = SpawnOutcome.spawned true [] false)
    (hrm : ∀ p, env.tryExists p = Except.ok false) :
    update_core env cli cp wp
      = (Event.capture "wp" ["core", "version", "--path=" ++ wp]
          :: Event.ensureParent (resolveCoreBackupPath cli.database_file_path wp env.now)
          :: Event.spawnStream "wp"
              ["db", "export", resolveCoreBackupPath cli.database_file_path wp env.now,
                "--defaults", "--path=" ++ wp]
          :: Event.capture "wp"
              ["plugin", "list", "--fields=name", "--status=active", "--format=json",
                "--path=" ++ wp]
          :: Event.spawnStream "wp" (["plugin", "deactivate"] ++ plugins ++ ["--path=" ++ wp])
          :: Event.spawnStream "wp" ["core", "update", "--path=" ++ wp]
          :: Event.spawnStream "wp" (["plugin", "activate"] ++ plugins ++ ["--path=" ++ wp])
          :: ((cli.remove_paths.map fun p => rustReplace p "{wordpress_path}" wp).map
                Event.probe
            ++ [Event.capture "wp" ["core", "version", "--path=" ++ wp],
                Event.spawnStream "git" ["-C", wp, "add", "."],
                Event.spawnStream "git" ["-C", wp, "commit", "-m",
                  cp ++ "Update WordPress Core" ++ cli.separator ++ v ++ " -> " ++ v]]),
        Except.ok ()) := by
  have hv := captureText_ok env "wp" ["core", "version", "--path=" ++ wp] v hver
  have hap := get_active_plugins_ok env wp rawP plugins hpl hdec
  have hbk := backup_database_ok env wp
    (resolveCoreBackupPath cli.database_file_path wp env.now) hmk (hsp _ _)
  have hgit := git_add_commit_ok env wp
    (cp ++ "Update WordPress Core" ++ cli.separator ++ v ++ " -> " ++ v) (hsp _ _) (hsp _ _)
  have hrem := remove_all_absent env hrm
  have hdeact := stream_command_ok env "wp"
    ("plugin" :: "deactivate" :: (plugins ++ ["--path=" ++ wp])) (hsp _ _)
  have hact := stream_command_ok env "wp"
    ("plugin" :: "activate" :: (plugins ++ ["--path=" ++ wp])) (hsp _ _)
  have hcu := stream_command_ok env "wp" ["core", "update", "--path=" ++ wp] (hsp _ _)
  simp [update_core, update, activate_plugins, get_wordpress_version, bindR, okR, hb, hc,
    hv, hap, hbk, hgit, hrem, hdeact, hact, hcu]

/-- Witness for C2 (amended): the concrete all-success world realizes the
whole amended Core sequence. -/
theorem update_core_sequence_witness :
    update_core envVersioned cliBC "" "/w"
      = ([Event.capture "wp" ["core", "version", "--path=/w"],
          Event.ensureParent "/b/db.sql",
          Event.spawnStream "wp" ["db", "export", "/b/db.sql", "--defaults", "--path=/w"],
          Event.capture "wp"
            ["plugin", "list", "--fields=name", "--status=active", "--format=json",
              "--path=/w"],
          Event.spawnStream "wp" ["plugin", "deactivate", "--path=/w"],
          Event.spawnStream "wp" ["core", "update", "--path=/w"],
          Event.spawnStream "wp" ["plugin", "activate", "--path=/w"],
          Event.capture "wp" ["core", "version", "--path=/w"],
          Event.spawnStream "git" ["-C", "/w", "add", "."],
          Event.spawnStream "git" ["-C", "/w", "commit", "-m",
            "Update WordPress Core: 6.0 -> 6.0"]],
        Except.ok ()) :=
  (update_core_sequence envVersioned cliBC "" "/w" "6.0" "" []
      rfl rfl rfl rfl (by rfl) rfl (fun _ _ => rfl) (fun _ => rfl)).trans (by rfl)

/-!  C4: the Translations step's invocations.  -/

theorem filter_isInvocation_probes (l : List String) :
    (l.map Event.probe).filter isInvocation = [] := by
  induction l with
  | nil => rfl
  | cons p rest ih => simp [isInvocation, ih]

/-- C4 counterexample: in the lib.rs orchestrator, the Translations step
with backup and commit disabled performs exactly ONE external invocation —
a single `wp eval` running the bulk language-pack upgrade — not three. -/
theorem translations_single_invocation_counterexample :
    ((update_translations baseEnv cliBase "" "/w").1.filter isInvocation)
      = [Event.spawnStream "wp" ["eval", translationsEvalArg, "--path=/w"]]
  ∧ ((update_translations baseEnv cliBase "" "/w").1.filter isInvocation).length = 1
  ∧ ((update_translations baseEnv cliBase "" "/w").1.filter isInvocation).length ≠ 3 :=
  ⟨rfl, rfl, by decide⟩

/-- C4 (amended): in lib.rs the Translations step updates the translation
packs for core, themes and plugins through a single `wp eval` bulk-upgrade
invocation; with backup and commit disabled its external-call sequence is
exactly that one invocation — no export, no commit.  (The older
src/src/main.rs revision performed it as three distinct invocations:
`wp language core update`, `wp language theme update --all`,
`wp language plugin update --all`.) -/
theorem translations_update_invocations (env : Env) (cli : Cli) (cp wp : String)
    (hb : cli.no_backup_database = true) (hc : cli.no_commit = true)
    (hsp : ∀ prog args, env.spawn prog args = SpawnOutcome.spawned true [] false)
    (hrm : ∀ p, env.tryExists p = Except.ok false) :
    (update_translations env cli cp wp
      = (Event.spawnStream "wp" ["eval", translationsEvalArg, "--path=" ++ wp]
          :: (cli.remove_paths.map fun p => rustReplace p "{wordpress_path}" wp).map
              Event.probe,
        Except.ok ()))
  ∧ ((update_translations env cli cp wp).1.filter isInvocation
      = [Event.spawnStream "wp" ["eval", translationsEvalArg, "--path=" ++ wp]])
  ∧ (mainrs_update_translations env none none
      = ([Event.spawnStream "wp" ["language", "core", "update"],
          Event.spawnStream "wp" ["language", "theme", "update", "--all"],
          Event.spawnStream "wp" ["language", "plugin", "update", "--all"]],
        Except.ok ())) := by
  have hs := stream_command_ok env "wp" ["eval", translationsEvalArg, "--path=" ++ wp] (hsp _ _)
  have hr := remove_all_absent env hrm
  have h1 : update_translations env cli cp wp
      = (Event.spawnStream "wp" ["eval", translationsEvalArg, "--path=" ++ wp]
          :: (cli.remove_paths.map fun p => rustReplace p "{wordpress_path}" wp).map
              Event.probe,
        Except.ok ()) := by
    simp [update_translations, update, bindR, okR, hb, hc, hs, hr]
  refine ⟨h1, ?_, ?_⟩
  · rw [h1]
    simp [isInvocation, filter_isInvocation_probes]
  · have hl1 := stream_command_ok env "wp" ["language", "core", "update"] (hsp _ _)
    have hl2 := stream_command_ok env "wp" ["language", "theme", "update", "--all"] (hsp _ _)
    have hl3 := stream_command_ok env "wp" ["language", "plugin", "update", "--all"] (hsp _ _)
    simp [mainrs_update_translations, bindR, okR, hl1, hl2, hl3]

/-- Witness for C4 (amended): the all-success world realizes the single
lib.rs invocation and the three main.rs invocations. -/
theorem translations_update_invocations_witness :
    update_translations baseEnv cliBase "" "/w"
      = ([Event.spawnStream "wp" ["eval", translationsEvalArg, "--path=/w"]], Except.ok ())
  ∧ mainrs_update_translations baseEnv none none
      = ([Event.spawnStream "wp" ["language", "core", "update"],
          Event.spawnStream "wp" ["language", "theme", "update", "--all"],
          Event.spawnStream "wp" ["language", "plugin", "update", "--all"]],
        Except.ok ()) :=
  ⟨((translations_update_invocations baseEnv cliBase "" "/w" rfl rfl
        (fun _ _ => rfl) (fun _ => rfl)).1).trans (by rfl),
    (translations_update_invocations baseEnv cliBase "" "/w" rfl rfl
        (fun _ _ => rfl) (fun _ => rfl)).2.2⟩

end UpdateWP
